import Mathlib

/-!
Verification of the Quark address/route allocation engine (quark/plugin.py)
against its natural-language specification.  The Python source is shallowly
embedded: strings become `List Char`, machine integers become `Nat`/`Int`,
raised exceptions become `Except PyErr` or an `Option PyErr` component, and
the database is explicit state.
-/

instance {ε α : Type} [DecidableEq ε] [DecidableEq α] : DecidableEq (Except ε α) := fun
  | .error e, .error f => decidable_of_iff (e = f) (by simp)
  | .error _, .ok _ => isFalse (by simp)
  | .ok _, .error _ => isFalse (by simp)
  | .ok a, .ok b => decidable_of_iff (a = b) (by simp)

namespace Quark

/-- The exceptions raised by the plugin and its collaborators
(quark.exceptions and quantum.common.exceptions), plus Python built-in
`ValueError` and netaddr `AddrFormatError` where they propagate. -/
inductive PyErr where
  | invalidMacAddressRange
  | valueError
  | addrFormatError
  | networkNotFound (netId : String)
  | subnetNotFound (subnetId : String)
  | subnetInUse (subnetId : String)
  | networkInUse (netId : String)
  | portNotFound (portId : String)
  | routeConflict (routeId : String) (cidr : String)
  | ipAddressExhausted
  | macAddressRangeExhausted
  | notFound (msg : String)
  deriving DecidableEq

/-! ### Character helpers (Python `str` operations over `List Char`) -/

/-- Python `'0' <= c <= '9'` on the code point. -/
def isDigitChar (c : Char) : Bool := 48 ≤ c.toNat && c.toNat ≤ 57

/-- Hex digit as accepted by `netaddr.EUI` bare format and Python `int(_, 16)`. -/
def isHexChar (c : Char) : Bool :=
  (48 ≤ c.toNat && c.toNat ≤ 57) || (97 ≤ c.toNat && c.toNat ≤ 102) ||
    (65 ≤ c.toNat && c.toNat ≤ 70)

/-- Numeric value of a hex digit. -/
def hexVal (c : Char) : Nat :=
  if 48 ≤ c.toNat && c.toNat ≤ 57 then c.toNat - 48
  else if 97 ≤ c.toNat then c.toNat - 87
  else c.toNat - 55

/-- Value of a big-endian hex digit string, as `int(s, 16)`. -/
def hexValList (l : List Char) : Nat :=
  l.foldl (fun a c => a * 16 + hexVal c) 0

/-- Value of a big-endian decimal digit string. -/
def decVal (l : List Char) : Nat :=
  l.foldl (fun a c => a * 10 + (c.toNat - 48)) 0

/-- Python whitespace stripped by `int()`. -/
def isSpaceChar (c : Char) : Bool := c == ' ' || c == '\t' || c == '\n' || c == '\r'

/-- `str.strip()` restricted to whitespace. -/
def stripSpaces (l : List Char) : List Char :=
  ((l.dropWhile isSpaceChar).reverse.dropWhile isSpaceChar).reverse

/-- Python 2 `int(s)`: optional surrounding whitespace, optional sign, then a
nonempty run of decimal digits; anything else raises `ValueError` (`none`). -/
def pyInt (l : List Char) : Option Int :=
  match stripSpaces l with
  | '-' :: ds =>
    if ds.isEmpty || !ds.all isDigitChar then none else some (-(decVal ds : Int))
  | '+' :: ds =>
    if ds.isEmpty || !ds.all isDigitChar then none else some (decVal ds : Int)
  | ds =>
    if ds.isEmpty || !ds.all isDigitChar then none else some (decVal ds : Int)

/-- Python `str.split(sep)` for a single-character separator: splits at every
occurrence and keeps empty pieces. -/
def splitChar (c : Char) : List Char → List (List Char)
  | [] => [[]]
  | x :: xs =>
    if x == c then [] :: splitChar c xs
    else
      match splitChar c xs with
      | [] => [[x]]
      | y :: ys => (x :: y) :: ys

/-- The decimal digit character for `n < 10`. -/
def digitChar (n : Nat) : Char := Char.ofNat (48 + n)

/-- Decimal rendering with structural fuel; `fuel > n` suffices. -/
def natCharsAux : Nat → Nat → List Char
  | 0, _ => []
  | fuel + 1, n =>
    if n < 10 then [digitChar n]
    else natCharsAux fuel (n / 10) ++ [digitChar (n % 10)]

/-- Python `str(n)` for a natural number. -/
def natChars (n : Nat) : List Char := natCharsAux (n + 1) n

/-- Python `str(i)` for an integer. -/
def intChars (i : Int) : List Char :=
  if i < 0 then '-' :: natChars (-i).toNat else natChars i.toNat

/-- The uppercase hex digit character for `n < 16`, as used by
`str(netaddr.EUI(_))`. -/
def hexDigitChar (n : Nat) : Char :=
  if n < 10 then Char.ofNat (48 + n) else Char.ofNat (55 + n)

/-- One octet of `str(netaddr.EUI(_))`: two uppercase hex digits. -/
def octetChars (b : Nat) : List Char := [hexDigitChar (b / 16), hexDigitChar (b % 16)]

/-- `str(netaddr.EUI(v)).replace("-", ":")` for a 48-bit value `v`: six
colon-separated uppercase octets. -/
def euiChars (v : Nat) : List Char :=
  octetChars (v / 2 ^ 40 % 256) ++ ':' :: (octetChars (v / 2 ^ 32 % 256) ++
    ':' :: (octetChars (v / 2 ^ 24 % 256) ++ ':' :: (octetChars (v / 2 ^ 16 % 256) ++
    ':' :: (octetChars (v / 2 ^ 8 % 256) ++ ':' :: octetChars (v % 256)))))

/-- The delimiter-stripping predicate of `_to_mac_range`
(`prefix.replace(':', '').replace('-', '')`). -/
def macKeep (c : Char) : Bool := !(c == ':') && !(c == '-')

/-- `Plugin._to_mac_range` (quark/plugin.py lines 828-849).  Splits on `/`,
strips `:` and `-` from the prefix part, requires the stripped prefix to
have 6..10 hex-ish characters, derives the mask (explicit after `/`, else
`48 - 4 * (12 - len)`), computes `mask_size = 1 << (48 - mask)` (Python
raises `ValueError` on a negative shift, i.e. when `mask > 48`), zero-pads
the prefix to 12 characters, renders the canonical cidr through
`netaddr.EUI` (which fails on non-hex content, rerouted to
`InvalidMacAddressRange`), and returns
`(canonical, prefix_int, prefix_int + mask_size)`. -/
def toMacRange (val : List Char) : Except PyErr (List Char × Nat × Nat) :=
  let parts := splitChar '/' val
  let pfx := (parts.headD []).filter macKeep
  if pfx.length < 6 || 10 < pfx.length then .error .invalidMacAddressRange
  else
    let diff := 12 - pfx.length
    let maskE : Except PyErr Int :=
      match parts.drop 1 with
      | m :: _ =>
        match pyInt m with
        | some i => .ok i
        | none => .error .valueError
      | [] => .ok (48 - 4 * (diff : Int))
    match maskE with
    | .error e => .error e
    | .ok mask =>
      if 48 < mask then .error .valueError
      else
        let maskSize : Nat := 2 ^ (48 - mask).toNat
        let padded := pfx ++ List.replicate diff '0'
        if padded.all isHexChar then
          let v := hexValList padded
          .ok (euiChars v ++ '/' :: intChars mask, v, v + maskSize)
        else .error .invalidMacAddressRange

/-! ### Lemmas about the MAC codec -/

theorem hexVal_lt_16 (c : Char) (h : isHexChar c = true) : hexVal c < 16 := by
  simp only [isHexChar, Bool.or_eq_true, Bool.and_eq_true, decide_eq_true_eq] at h
  unfold hexVal
  split <;> rename_i h1
  · simp only [Bool.and_eq_true, decide_eq_true_eq] at h1; omega
  · simp only [Bool.and_eq_true, decide_eq_true_eq, not_and, not_le] at h1
    split <;> rename_i h2 <;> omega

theorem hexFold_lt (l : List Char) (hl : l.all isHexChar = true) :
    ∀ a : Nat, l.foldl (fun a c => a * 16 + hexVal c) a < (a + 1) * 16 ^ l.length := by
  induction l with
  | nil => intro a; simp
  | cons c l ih =>
    intro a
    simp only [List.all_cons, Bool.and_eq_true] at hl
    have hc : hexVal c < 16 := hexVal_lt_16 c hl.1
    have step := ih hl.2 (a * 16 + hexVal c)
    calc List.foldl (fun a c => a * 16 + hexVal c) (a * 16 + hexVal c) l
        < (a * 16 + hexVal c + 1) * 16 ^ l.length := step
      _ ≤ ((a + 1) * 16) * 16 ^ l.length := by
          have : a * 16 + hexVal c + 1 ≤ (a + 1) * 16 := by omega
          exact Nat.mul_le_mul_right _ this
      _ = (a + 1) * 16 ^ (c :: l).length := by
          simp [List.length_cons, Nat.pow_succ]; ring

theorem hexValList_lt (l : List Char) (hl : l.all isHexChar = true) :
    hexValList l < 16 ^ l.length := by
  simpa [hexValList] using hexFold_lt l hl 0

theorem natCharsAux_mem (fuel : Nat) :
    ∀ n, n < fuel → ∀ c ∈ natCharsAux fuel n, ∃ d, d < 10 ∧ c = digitChar d := by
  induction fuel with
  | zero => intro n hn; omega
  | succ fuel ih =>
    intro n _hn c hc
    unfold natCharsAux at hc
    split at hc <;> rename_i h10
    · simp only [List.mem_singleton] at hc
      exact ⟨n, h10, hc⟩
    · rcases List.mem_append.mp hc with h | h
      · have hdiv : n / 10 < fuel := by omega
        exact ih (n / 10) hdiv c h
      · simp only [List.mem_singleton] at h
        exact ⟨n % 10, Nat.mod_lt _ (by omega), h⟩

theorem natChars_mem (n : Nat) : ∀ c ∈ natChars n, ∃ d, d < 10 ∧ c = digitChar d :=
  natCharsAux_mem (n + 1) n (Nat.lt_succ_self n)

theorem intChars_mem (i : Int) :
    ∀ c ∈ intChars i, c = '-' ∨ ∃ d, d < 10 ∧ c = digitChar d := by
  intro c hc
  unfold intChars at hc
  split at hc
  · rcases List.mem_cons.mp hc with h | h
    · exact Or.inl h
    · exact Or.inr (natChars_mem _ c h)
  · exact Or.inr (natChars_mem _ c hc)

theorem digitChar_ne_slash : ∀ d, d < 10 → digitChar d ≠ '/' := by decide

theorem hexDigitChar_ne_slash : ∀ n, n < 16 → hexDigitChar n ≠ '/' := by decide

theorem macKeep_hexDigitChar : ∀ n, n < 16 → macKeep (hexDigitChar n) = true := by decide

theorem slash_not_mem_octet (b : Nat) (hb : b < 256) : '/' ∉ octetChars b := by
  intro h
  have h1 : b / 16 < 16 := by omega
  have h2 : b % 16 < 16 := by omega
  simp only [octetChars, List.mem_cons, List.not_mem_nil, or_false] at h
  rcases h with h | h
  · exact hexDigitChar_ne_slash _ h1 h.symm
  · exact hexDigitChar_ne_slash _ h2 h.symm

theorem slash_not_mem_eui (v : Nat) : '/' ∉ euiChars v := by
  have hm : ∀ x : Nat, x % 256 < 256 := fun x => by omega
  unfold euiChars
  intro h
  rcases List.mem_append.mp h with h | h
  · exact slash_not_mem_octet _ (hm _) h
  rcases List.mem_cons.mp h with h | h
  · exact absurd h (by decide)
  rcases List.mem_append.mp h with h | h
  · exact slash_not_mem_octet _ (hm _) h
  rcases List.mem_cons.mp h with h | h
  · exact absurd h (by decide)
  rcases List.mem_append.mp h with h | h
  · exact slash_not_mem_octet _ (hm _) h
  rcases List.mem_cons.mp h with h | h
  · exact absurd h (by decide)
  rcases List.mem_append.mp h with h | h
  · exact slash_not_mem_octet _ (hm _) h
  rcases List.mem_cons.mp h with h | h
  · exact absurd h (by decide)
  rcases List.mem_append.mp h with h | h
  · exact slash_not_mem_octet _ (hm _) h
  rcases List.mem_cons.mp h with h | h
  · exact absurd h (by decide)
  exact slash_not_mem_octet _ (hm _) h

theorem slash_not_mem_int (i : Int) : '/' ∉ intChars i := by
  intro h
  rcases intChars_mem i '/' h with h | ⟨d, hd, h⟩
  · exact absurd h (by decide)
  · exact digitChar_ne_slash d hd h.symm

theorem filter_octet (b : Nat) (hb : b < 256) :
    List.filter macKeep (octetChars b) = octetChars b := by
  have h1 : b / 16 < 16 := by omega
  have h2 : b % 16 < 16 := Nat.mod_lt _ (by omega)
  simp [octetChars, List.filter, macKeep_hexDigitChar _ h1, macKeep_hexDigitChar _ h2]

theorem macKeep_colon : macKeep ':' = false := by decide

theorem filter_colon_cons (l : List Char) :
    List.filter macKeep (':' :: l) = List.filter macKeep l := by
  simp [List.filter_cons, macKeep_colon]

theorem length_filter_eui (v : Nat) : (List.filter macKeep (euiChars v)).length = 12 := by
  have hm : ∀ x : Nat, x % 256 < 256 := fun x => by omega
  simp only [euiChars, List.filter_append, filter_colon_cons, filter_octet _ (hm _)]
  simp [octetChars]

theorem splitChar_of_not_mem (c : Char) (l : List Char) (h : c ∉ l) :
    splitChar c l = [l] := by
  induction l with
  | nil => rfl
  | cons x xs ih =>
    have hx : (x == c) = false :=
      beq_eq_false_iff_ne.mpr (fun hxc => h (hxc ▸ List.mem_cons_self x xs))
    have hxs : c ∉ xs := fun hm => h (List.mem_cons_of_mem x hm)
    simp only [splitChar, hx, Bool.false_eq_true, if_false, ih hxs]

theorem splitChar_append (c : Char) (a b : List Char) (h : c ∉ a) :
    splitChar c (a ++ c :: b) = a :: splitChar c b := by
  induction a with
  | nil => simp [splitChar]
  | cons x xs ih =>
    have hx : (x == c) = false :=
      beq_eq_false_iff_ne.mpr (fun hxc => h (hxc ▸ List.mem_cons_self x xs))
    have hxs : c ∉ xs := fun hm => h (List.mem_cons_of_mem x hm)
    simp only [List.cons_append, splitChar, hx, Bool.false_eq_true, if_false,
      List.append_eq, ih hxs]

/-- Every successful `_to_mac_range` output has the canonical shape
`<6 colon-separated octets>/<mask>` with `first = prefix value < 2^48`,
`mask ≤ 48` and `last = first + 2^(48 - mask)`. -/
theorem toMacRange_ok_shape (val c : List Char) (f l : Nat)
    (h : toMacRange val = .ok (c, f, l)) :
    ∃ v mask, c = euiChars v ++ '/' :: intChars mask ∧ v < 2 ^ 48 ∧ mask ≤ 48 ∧
      f = v ∧ l = v + 2 ^ (48 - mask).toNat := by
  simp only [toMacRange] at h
  split at h
  · exact absurd h (by simp)
  · rename_i hlen
    split at h
    · exact absurd h (by simp)
    · rename_i mask _
      split at h
      · exact absurd h (by simp)
      · rename_i hmask
        split at h <;> rename_i hhex
        · simp only [Except.ok.injEq, Prod.mk.injEq] at h
          obtain ⟨hc, hf, hl⟩ := h
          simp only [Bool.or_eq_true, decide_eq_true_eq, not_or, not_lt] at hlen
          refine ⟨hexValList _, mask, hc.symm, ?_, by omega, hf.symm, hl.symm⟩
          have hbound := hexValList_lt _ hhex
          simp only [List.length_append, List.length_replicate] at hbound
          have h12 : (List.filter macKeep ((splitChar '/' val).headD [])).length +
              (12 - (List.filter macKeep ((splitChar '/' val).headD [])).length) = 12 := by
            omega
          rw [h12] at hbound
          exact lt_of_lt_of_le hbound (by norm_num)
        · exact absurd h (by simp)

/-- Claim C4 (amended): the canonical output of `_to_mac_range` always has a
12-hex-digit prefix, which the 6..10-digit validation rejects, so feeding the
canonical cidr back into the codec always fails with `InvalidMacAddressRange`
instead of round-tripping. -/
theorem toMacRange_roundtrip_fails (val c : List Char) (f l : Nat)
    (h : toMacRange val = .ok (c, f, l)) :
    toMacRange c = .error .invalidMacAddressRange := by
  obtain ⟨v, mask, hc, -, -, -, -⟩ := toMacRange_ok_shape val c f l h
  subst hc
  have hsplit : splitChar '/' (euiChars v ++ '/' :: intChars mask) =
      [euiChars v, intChars mask] := by
    rw [splitChar_append '/' _ _ (slash_not_mem_eui v),
      splitChar_of_not_mem '/' _ (slash_not_mem_int mask)]
  simp [toMacRange, hsplit, length_filter_eui]

/-- Claim C4 counterexample: parsing `"AA-BB-CC"` succeeds with canonical
cidr `"AA:BB:CC:00:00:00/24"`, but parsing that canonical output raises
`InvalidMacAddressRange` rather than returning the same triple. -/
theorem toMacRange_roundtrip_counterexample :
    toMacRange "AA-BB-CC".data =
      .ok ("AA:BB:CC:00:00:00/24".data, 0xAABBCC000000, 0xAABBCD000000) ∧
    toMacRange "AA:BB:CC:00:00:00/24".data = .error .invalidMacAddressRange :=
  ⟨by decide, by decide⟩

/-- Witness for the amended claim C4 at the concrete input `"AA-BB-CC"`. -/
theorem toMacRange_roundtrip_fails_witness :
    toMacRange "AA:BB:CC:00:00:00/24".data = .error .invalidMacAddressRange :=
  toMacRange_roundtrip_fails "AA-BB-CC".data "AA:BB:CC:00:00:00/24".data
    0xAABBCC000000 0xAABBCD000000 (by decide)

/-- Claim C6: `_to_mac_range("AA-BB-CC")` returns exactly
`("AA:BB:CC:00:00:00/24", 0xAABBCC000000, 0xAABBCD000000)`, and in general a
successful parse returns `first = prefix value` and
`last = first + 2^(48 - mask)` for the mask it derived. -/
theorem toMacRange_unix_format :
    toMacRange "AA-BB-CC".data =
      .ok ("AA:BB:CC:00:00:00/24".data, 0xAABBCC000000, 0xAABBCD000000) ∧
    ∀ val c f l, toMacRange val = .ok (c, f, l) →
      ∃ mask : Int, mask ≤ 48 ∧ l = f + 2 ^ (48 - mask).toNat := by
  refine ⟨by decide, ?_⟩
  intro val c f l h
  obtain ⟨v, mask, -, -, hm, hf, hl⟩ := toMacRange_ok_shape val c f l h
  exact ⟨mask, hm, by rw [hf, hl]⟩

/-- Witness for claim C6 at the concrete input `"AA-BB-CC"`. -/
theorem toMacRange_unix_format_witness :
    ∃ mask : Int, mask ≤ 48 ∧
      (0xAABBCD000000 : Nat) = 0xAABBCC000000 + 2 ^ ((48 : Int) - mask).toNat :=
  toMacRange_unix_format.2 "AA-BB-CC".data "AA:BB:CC:00:00:00/24".data
    0xAABBCC000000 0xAABBCD000000 (by decide)

/-- Claim C7 (amended): on every successful return,
`first_address < last_address` and `first_address < 2^48` hold, but
`last_address` is not always within the 48-bit space: a mask of `0` (or a
maximal 10-digit prefix) pushes `last = first + 2^(48 - mask)` to `2^48` or
beyond. -/
theorem toMacRange_bounds (val c : List Char) (f l : Nat)
    (h : toMacRange val = .ok (c, f, l)) : f < l ∧ f < 2 ^ 48 := by
  obtain ⟨v, mask, -, hv, -, hf, hl⟩ := toMacRange_ok_shape val c f l h
  subst hf hl
  exact ⟨Nat.lt_add_of_pos_right (Nat.pos_pow_of_pos _ (by omega)), hv⟩

/-- Claim C7 counterexample: `_to_mac_range("AA:BB:CC/0")` returns without
raising, yet its `last_address` equals `first + 2^48`, which is not strictly
below `2^48` — the claimed 48-bit bound fails. -/
theorem toMacRange_bounds_counterexample :
    toMacRange "AA:BB:CC/0".data =
      .ok ("AA:BB:CC:00:00:00/0".data, 0xAABBCC000000, 0xAABBCC000000 + 2 ^ 48) ∧
    ¬(0xAABBCC000000 + 2 ^ 48 < 2 ^ 48) :=
  ⟨by decide, by norm_num⟩

/-- Witness for the amended claim C7 at the concrete input `"AA-BB-CC"`. -/
theorem toMacRange_bounds_witness :
    (0xAABBCC000000 : Nat) < 0xAABBCD000000 ∧ (0xAABBCC000000 : Nat) < 2 ^ 48 :=
  toMacRange_bounds "AA-BB-CC".data "AA:BB:CC:00:00:00/24".data
    0xAABBCC000000 0xAABBCD000000 (by decide)

/-! ### IPv4 networks (the fragment of `netaddr` used by the route logic)

Route destinations and subnet cidrs flow through `netaddr.IPNetwork`; the
plugin only compares them against the IPv4 wildcard `DEFAULT_ROUTE =
IPNetwork("0.0.0.0/0")` and uses `.first` and containment.  A network is
embedded as `(value, prefixlen)`; parsing models strict dotted-quad IPv4
with an optional `/len` (a full quad without a mask gets `/32`, as
netaddr does). -/

/-- A nonempty all-digit string, else `none`. -/
def parseDecAll (l : List Char) : Option Nat :=
  if l.isEmpty || !l.all isDigitChar then none else some (decVal l)

/-- Dotted-quad IPv4 text to its 32-bit value. -/
def parseIPv4 (l : List Char) : Option Nat :=
  match splitChar '.' l with
  | [a, b, c, d] => do
    let a ← parseDecAll a
    let b ← parseDecAll b
    let c ← parseDecAll c
    let d ← parseDecAll d
    if a ≤ 255 ∧ b ≤ 255 ∧ c ≤ 255 ∧ d ≤ 255 then
      some (a * 2 ^ 24 + b * 2 ^ 16 + c * 2 ^ 8 + d)
    else none
  | _ => none

/-- `netaddr.IPNetwork(text)` for IPv4: `(value, prefixlen)`. -/
def parseIpNetwork (l : List Char) : Option (Nat × Nat) :=
  match splitChar '/' l with
  | [a] => (parseIPv4 a).map (fun v => (v, 32))
  | [a, p] => do
    let v ← parseIPv4 a
    let pl ← parseDecAll p
    if pl ≤ 32 then some (v, pl) else none
  | _ => none

/-- `str(netaddr.IPAddress(n))` for a 32-bit value: dotted quad. -/
def ipFormat (n : Nat) : List Char :=
  natChars (n / 2 ^ 24 % 256) ++ '.' :: (natChars (n / 2 ^ 16 % 256) ++
    '.' :: (natChars (n / 2 ^ 8 % 256) ++ '.' :: natChars (n % 256)))

/-- `IPNetwork.first`: the masked network base address. -/
def cidrFirst (n : Nat × Nat) : Nat := n.1 / 2 ^ (32 - n.2) * 2 ^ (32 - n.2)

/-- `IPNetwork.last`: the top address of the network. -/
def cidrLast (n : Nat × Nat) : Nat := cidrFirst n + 2 ^ (32 - n.2) - 1

/-- `inner in outer` on `netaddr.IPNetwork`s: range containment (equality
counts as contained). -/
def cidrContains (outer inner : Nat × Nat) : Bool :=
  decide (cidrFirst outer ≤ cidrFirst inner ∧ cidrLast inner ≤ cidrLast outer)

/-- `str(netaddr.IPNetwork(n))`. -/
def ipNetworkStr (n : Nat × Nat) : List Char := ipFormat n.1 ++ '/' :: natChars n.2

/-- A host route as supplied in an API request:
`{"destination": ..., "nexthop": ...}`. -/
structure HostRoute where
  destination : List Char
  nexthop : List Char
  deriving DecidableEq

/-- Whether a supplied route is the default route
(`IPNetwork(destination) == DEFAULT_ROUTE`). -/
def isDefaultRouteB (r : HostRoute) : Bool :=
  decide (parseIpNetwork r.destination = some (0, 0))

/-- The `for route in routes: if IPNetwork(destination) == DEFAULT_ROUTE:
default_route = route; break` loop of `create_subnet`/`update_subnet`;
a malformed destination raises `AddrFormatError`. -/
def findDefault : List HostRoute → Except PyErr (Option HostRoute)
  | [] => .ok none
  | r :: rs =>
    match parseIpNetwork r.destination with
    | none => .error .addrFormatError
    | some n => if n = (0, 0) then .ok (some r) else findDefault rs

/-- The gateway/default-route logic of `Plugin.create_subnet`
(quark/plugin.py lines 229-278): the gateway defaults to
`cidr.first + 1` when unspecified; if no supplied host route is the default
route, a synthetic `str(DEFAULT_ROUTE) -> gateway` route is appended,
otherwise the first supplied default route's nexthop becomes the gateway
and nothing is appended.  Returns `(gateway_ip, created routes)`. -/
def create_subnet_routes (cidr : List Char) (gatewayIp : Option (List Char))
    (hostRoutes : List HostRoute) : Except PyErr (List Char × List HostRoute) :=
  match parseIpNetwork cidr with
  | none => .error .addrFormatError
  | some n =>
    let gateway := match gatewayIp with
      | some g => g
      | none => ipFormat (cidrFirst n + 1)
    match findDefault hostRoutes with
    | .error e => .error e
    | .ok none => .ok (gateway, hostRoutes ++ [⟨"0.0.0.0/0".data, gateway⟩])
    | .ok (some d) => .ok (d.nexthop, hostRoutes)

/-- A persisted Route record (quark.db Route): destination cidr and
gateway. -/
structure RouteRec where
  cidr : List Char
  gateway : List Char
  deriving DecidableEq

/-- The gateway loop of `_make_subnet_dict`: the first stored route whose
cidr parses to the default network supplies `gateway_ip`; absent one, the
dict carries no gateway. -/
def dictGateway : List RouteRec → Except PyErr (Option (List Char))
  | [] => .ok none
  | r :: rs =>
    match parseIpNetwork r.cidr with
    | none => .error .addrFormatError
    | some n => if n = (0, 0) then .ok (some r.gateway) else dictGateway rs

/-- The `route_create` loop of `update_subnet`: walks the supplied routes
in order and records the nexthop of each default route it meets (the last
one wins), starting from `acc`. -/
def lastDefaultNexthopAux (acc : Option (List Char)) :
    List HostRoute → Except PyErr (Option (List Char))
  | [] => .ok acc
  | r :: rs =>
    match parseIpNetwork r.destination with
    | none => .error .addrFormatError
    | some n => lastDefaultNexthopAux (if n = (0, 0) then some r.nexthop else acc) rs

/-- The route-handling fragment of `Plugin.update_subnet`
(quark/plugin.py lines 297-354) for an update that supplies no
`gateway_ip` (so the `if gateway_ip:` block is skipped): the subnet dict is
built first from the existing routes (supplying its gateway), then — only
when the supplied `host_routes` list is non-empty (`if routes:`) — every
existing route record is deleted, the supplied routes are created in their
place, the dict gateway is reset to `None` and set to the nexthop of each
supplied default route in turn.  Returns `(stored route set, dict
gateway_ip)`. -/
def update_subnet_routes (existing : List RouteRec) (hostRoutes : List HostRoute) :
    Except PyErr (List RouteRec × Option (List Char)) :=
  match dictGateway existing with
  | .error e => .error e
  | .ok gw0 =>
    if hostRoutes.isEmpty then .ok (existing, gw0)
    else
      match lastDefaultNexthopAux none hostRoutes with
      | .error e => .error e
      | .ok gw => .ok (hostRoutes.map (fun r => ⟨r.destination, r.nexthop⟩), gw)

/-! ### `create_route` and its subnet lookup -/

/-- A persisted Subnet record, as far as `create_route` reads it. -/
structure StoredSubnet where
  id : List Char
  deriving DecidableEq

/-- A persisted Route record with identity and owning subnet. -/
structure StoredRoute where
  id : List Char
  cidr : List Char
  gateway : List Char
  subnet_id : List Char
  deriving DecidableEq

/-- The datastore slice `create_route` touches. -/
structure RouteDb where
  subnets : List StoredSubnet
  routes : List StoredRoute
  deriving DecidableEq

/-- The `id=` argument handed to `db_api.subnet_find`.  `Plugin.create_route`
passes the Python builtin function `id` (there is no local named `id` in
its scope), which equals no stored subnet id, so the lookup matches
nothing. -/
inductive IdArg where
  | builtinId
  | strId (s : List Char)
  deriving DecidableEq

/-- `db_api.subnet_find(context, id=...)` filtered on the id column. -/
def subnet_find (db : RouteDb) (i : IdArg) : Option StoredSubnet :=
  match i with
  | .builtinId => none
  | .strId s => db.subnets.find? (fun t => t.id == s)

/-- The conflict loop of `create_route`: for each existing route of the
subnet, parse its cidr and raise `RouteConflict` when either network
contains the other. -/
def conflictScan : List StoredRoute → Nat × Nat → Option PyErr
  | [], _ => none
  | r :: rs, n =>
    match parseIpNetwork r.cidr with
    | none => some .addrFormatError
    | some m =>
      if cidrContains m n || cidrContains n m then
        some (.routeConflict (String.mk r.id) (String.mk (ipNetworkStr n)))
      else conflictScan rs n

/-- `Plugin.create_route` (quark/plugin.py lines 863-882).  Note the subnet
lookup on line 867 is `db_api.subnet_find(context, id=id)` with the Python
builtin `id`, not the `subnet_id` extracted from the request, so it finds
nothing and `SubnetNotFound` is raised before the conflict scan can run. -/
def create_route (db : RouteDb) (newId subnetId cidr gateway : List Char) :
    Except PyErr (RouteDb × StoredRoute) :=
  match subnet_find db IdArg.builtinId with
  | none => .error (.subnetNotFound (String.mk subnetId))
  | some _ =>
    match parseIpNetwork cidr with
    | none => .error .addrFormatError
    | some routeCidr =>
      match conflictScan (db.routes.filter (fun r => r.subnet_id == subnetId)) routeCidr with
      | some e => .error e
      | none =>
        let newRoute : StoredRoute := ⟨newId, cidr, gateway, subnetId⟩
        .ok ({ db with routes := db.routes ++ [newRoute] }, newRoute)

/-! ### Lemmas about the route logic -/

theorem findDefault_none (l : List HostRoute)
    (h : ∀ r ∈ l, ∃ n, parseIpNetwork r.destination = some n ∧ n ≠ (0, 0)) :
    findDefault l = .ok none := by
  induction l with
  | nil => rfl
  | cons r rs ih =>
    obtain ⟨n, hn, hne⟩ := h r (List.mem_cons_self r rs)
    simp only [findDefault, hn]
    rw [if_neg hne]
    exact ih (fun t ht => h t (List.mem_cons_of_mem r ht))

theorem create_subnet_routes_no_default (cidr : List Char)
    (hostRoutes : List HostRoute) (n : Nat × Nat)
    (hc : parseIpNetwork cidr = some n) (hf : findDefault hostRoutes = .ok none) :
    create_subnet_routes cidr none hostRoutes =
      .ok (ipFormat (cidrFirst n + 1),
        hostRoutes ++ [⟨"0.0.0.0/0".data, ipFormat (cidrFirst n + 1)⟩]) := by
  simp only [create_subnet_routes, hc, hf]

/-- Claim C5: creating subnet `10.0.0.0/24` with no explicit gateway and no
default route among the supplied host routes yields gateway `10.0.0.1`
(network address + 1) and appends exactly one default route
`0.0.0.0/0 -> 10.0.0.1`; if a supplied route's destination is the wildcard
network, its nexthop becomes the gateway and no synthetic route is added. -/
theorem create_subnet_default_route_synthesis :
    (∀ hostRoutes : List HostRoute,
      (∀ r ∈ hostRoutes, ∃ n, parseIpNetwork r.destination = some n ∧ n ≠ (0, 0)) →
      create_subnet_routes "10.0.0.0/24".data none hostRoutes =
        .ok ("10.0.0.1".data, hostRoutes ++ [⟨"0.0.0.0/0".data, "10.0.0.1".data⟩]) ∧
      (hostRoutes ++
        [(⟨"0.0.0.0/0".data, "10.0.0.1".data⟩ : HostRoute)]).countP isDefaultRouteB = 1) ∧
    (∀ (hostRoutes : List HostRoute) (d : HostRoute),
      findDefault hostRoutes = .ok (some d) →
      create_subnet_routes "10.0.0.0/24".data none hostRoutes = .ok (d.nexthop, hostRoutes)) := by
  constructor
  · intro hostRoutes h
    have hc : parseIpNetwork "10.0.0.0/24".data = some (167772160, 24) := by decide
    have hgw : ipFormat (cidrFirst (167772160, 24) + 1) = "10.0.0.1".data := by decide
    have hf := findDefault_none hostRoutes h
    refine ⟨?_, ?_⟩
    · rw [create_subnet_routes_no_default _ _ _ hc hf, hgw]
    · rw [List.countP_append]
      have h0 : hostRoutes.countP isDefaultRouteB = 0 := by
        rw [List.countP_eq_zero]
        intro r hr
        obtain ⟨n, hn, hne⟩ := h r hr
        simp only [isDefaultRouteB, hn, Option.some.injEq, decide_eq_true_eq]
        exact hne
      rw [h0]
      decide
  · intro hostRoutes d hf
    have hc : parseIpNetwork "10.0.0.0/24".data = some (167772160, 24) := by decide
    simp only [create_subnet_routes, hc, hf]

/-- Witness for claim C5: a single non-default host route gets the synthetic
default appended, and a caller-supplied wildcard route supplies the
gateway with nothing appended. -/
theorem create_subnet_default_route_synthesis_witness :
    create_subnet_routes "10.0.0.0/24".data none
        [⟨"192.168.1.0/24".data, "10.0.0.4".data⟩] =
      .ok ("10.0.0.1".data,
        [⟨"192.168.1.0/24".data, "10.0.0.4".data⟩, ⟨"0.0.0.0/0".data, "10.0.0.1".data⟩]) ∧
    create_subnet_routes "10.0.0.0/24".data none [⟨"0.0.0.0/0".data, "10.0.0.5".data⟩] =
      .ok ("10.0.0.5".data, [⟨"0.0.0.0/0".data, "10.0.0.5".data⟩]) := by
  constructor
  · have h : ∀ r ∈ ([⟨"192.168.1.0/24".data, "10.0.0.4".data⟩] : List HostRoute),
        ∃ n, parseIpNetwork r.destination = some n ∧ n ≠ (0, 0) := by
      intro r hr
      have hr' : r = ⟨"192.168.1.0/24".data, "10.0.0.4".data⟩ := List.mem_singleton.mp hr
      subst hr'
      refine ⟨(0xC0A80100, 24), by decide, by decide⟩
    exact (create_subnet_default_route_synthesis.1 _ h).1
  · exact create_subnet_default_route_synthesis.2 _ ⟨"0.0.0.0/0".data, "10.0.0.5".data⟩
      (by decide)

theorem lastAux_no_default (l : List HostRoute)
    (h : ∀ r ∈ l, ∃ n, parseIpNetwork r.destination = some n ∧ n ≠ (0, 0)) :
    ∀ acc, lastDefaultNexthopAux acc l = .ok acc := by
  induction l with
  | nil => intro acc; rfl
  | cons r rs ih =>
    intro acc
    obtain ⟨n, hn, hne⟩ := h r (List.mem_cons_self r rs)
    simp only [lastDefaultNexthopAux, hn, if_neg hne]
    exact ih (fun t ht => h t (List.mem_cons_of_mem r ht)) acc

theorem lastAux_append (a b : List HostRoute) :
    ∀ acc acc', lastDefaultNexthopAux acc a = .ok acc' →
      lastDefaultNexthopAux acc (a ++ b) = lastDefaultNexthopAux acc' b := by
  induction a with
  | nil =>
    intro acc acc' h
    simp only [lastDefaultNexthopAux] at h
    injection h with h
    subst h
    rfl
  | cons r rs ih =>
    intro acc acc' h
    simp only [lastDefaultNexthopAux, List.cons_append] at h ⊢
    cases hp : parseIpNetwork r.destination with
    | none => rw [hp] at h; simp at h
    | some n => rw [hp] at h; exact ih _ _ h

theorem lastAux_ok (l : List HostRoute)
    (h : ∀ r ∈ l, ∃ n, parseIpNetwork r.destination = some n) :
    ∀ acc, ∃ acc', lastDefaultNexthopAux acc l = .ok acc' := by
  induction l with
  | nil => intro acc; exact ⟨acc, rfl⟩
  | cons r rs ih =>
    intro acc
    obtain ⟨n, hn⟩ := h r (List.mem_cons_self r rs)
    simp only [lastDefaultNexthopAux, hn]
    exact ih (fun t ht => h t (List.mem_cons_of_mem r ht)) _

/-- Claim C8 (amended): an update supplying a NON-EMPTY host-routes list
replaces the entire stored route set with the supplied routes, and the
returned gateway is the nexthop of the last supplied default route, or
`None` when the supplied list has no default route.  (An empty supplied
list is falsy, is treated like an absent key, and replaces nothing — see
the counterexample.) -/
theorem update_subnet_routes_full_replace :
    (∀ (existing : List RouteRec) (hostRoutes : List HostRoute) gw0 gw,
      hostRoutes ≠ [] →
      dictGateway existing = .ok gw0 →
      lastDefaultNexthopAux none hostRoutes = .ok gw →
      update_subnet_routes existing hostRoutes =
        .ok (hostRoutes.map (fun r => (⟨r.destination, r.nexthop⟩ : RouteRec)), gw)) ∧
    (∀ hostRoutes : List HostRoute,
      (∀ r ∈ hostRoutes, ∃ n, parseIpNetwork r.destination = some n ∧ n ≠ (0, 0)) →
      lastDefaultNexthopAux none hostRoutes = .ok none) ∧
    (∀ (pre post : List HostRoute) (d : HostRoute),
      (∀ r ∈ pre, ∃ n, parseIpNetwork r.destination = some n) →
      parseIpNetwork d.destination = some (0, 0) →
      (∀ r ∈ post, ∃ n, parseIpNetwork r.destination = some n ∧ n ≠ (0, 0)) →
      lastDefaultNexthopAux none (pre ++ d :: post) = .ok (some d.nexthop)) := by
  refine ⟨?_, ?_, ?_⟩
  · intro existing hostRoutes gw0 gw hne hdg hlast
    have hemp : hostRoutes.isEmpty = false := by
      cases hostRoutes with
      | nil => exact absurd rfl hne
      | cons r rs => rfl
    simp only [update_subnet_routes, hdg, hemp, Bool.false_eq_true, if_false, hlast]
  · intro hostRoutes h
    exact lastAux_no_default hostRoutes h none
  · intro pre post d hpre hd hpost
    obtain ⟨acc', hacc⟩ := lastAux_ok pre hpre none
    rw [lastAux_append pre (d :: post) none acc' hacc]
    simp only [lastDefaultNexthopAux, hd, if_true]
    have := lastAux_no_default post hpost
      (if (0, 0) = ((0 : Nat), (0 : Nat)) then some d.nexthop else acc')
    simpa using this

/-- Claim C8 counterexample: a subnet update supplying `host_routes = []`
(an empty, but supplied, list) leaves the existing non-empty route set in
place instead of deleting it — `if routes:` treats an empty list like an
absent key. -/
theorem update_subnet_routes_empty_list_counterexample :
    update_subnet_routes [⟨"1.1.1.0/24".data, "10.0.0.3".data⟩] [] =
      .ok ([⟨"1.1.1.0/24".data, "10.0.0.3".data⟩], none) ∧
    ([(⟨"1.1.1.0/24".data, "10.0.0.3".data⟩ : RouteRec)] : List RouteRec) ≠ [] :=
  ⟨by decide, by decide⟩

/-- Witness for the amended claim C8: a non-empty supplied list replaces an
existing default route wholesale, and its gateway is cleared because the
new list carries no default route. -/
theorem update_subnet_routes_full_replace_witness :
    update_subnet_routes [⟨"0.0.0.0/0".data, "10.0.0.3".data⟩]
        [⟨"8.8.8.0/24".data, "10.0.0.4".data⟩] =
      .ok ([⟨"8.8.8.0/24".data, "10.0.0.4".data⟩], none) := by
  have h2 := update_subnet_routes_full_replace.2.1
    [⟨"8.8.8.0/24".data, "10.0.0.4".data⟩]
    (by
      intro r hr
      rw [List.mem_singleton] at hr
      subst hr
      exact ⟨(0x08080800, 24), by decide, by decide⟩)
  exact update_subnet_routes_full_replace.1 _ _ (some "10.0.0.3".data) none
    (by decide) (by decide) h2

/-- Claim C3 (code bug): every `create_route` call — including on an
existing subnet that already has a conflicting route — fails with
`SubnetNotFound`, because the subnet lookup passes the Python builtin `id`
instead of the request's `subnet_id`; the `RouteConflict` scan is dead
code.  The concrete conjunct evaluates the failing input from the claim:
route `0.0.0.0/0 -> 10.0.0.5` on subnet `s1` that already has
`0.0.0.0/0 -> 10.0.0.1`. -/
theorem create_route_subnet_lookup_bug :
    (∀ (db : RouteDb) (newId subnetId cidr gateway : List Char),
      create_route db newId subnetId cidr gateway =
        .error (.subnetNotFound (String.mk subnetId))) ∧
    create_route
        ⟨[⟨"s1".data⟩], [⟨"r1".data, "0.0.0.0/0".data, "10.0.0.1".data, "s1".data⟩]⟩
        "r2".data "s1".data "0.0.0.0/0".data "10.0.0.5".data =
      .error (.subnetNotFound "s1") :=
  ⟨fun _ _ _ _ _ => rfl, by decide⟩

/-! ### Subnet deletion (`_delete_subnet`, `delete_subnet`, `delete_network`) -/

/-- A persisted Subnet with its `allocated_ips` relationship (the quark.db
model collection of not-deallocated addresses in the subnet). -/
structure SubnetRec where
  id : List Char
  allocated_ips : List Nat
  deriving DecidableEq

/-- A persisted Network: its ports and its subnets, as `delete_network`
reads them. -/
structure NetworkRec where
  id : List Char
  ports : List (List Char)
  subnets : List SubnetRec
  deriving DecidableEq

/-- `Plugin.delete_subnet` + `Plugin._delete_subnet` (quark/plugin.py lines
416-431) over a store of subnet records: look the subnet up; raise
`SubnetInUse` when `allocated_ips` is non-empty, else delete the record. -/
def delete_subnet (store : List SubnetRec) (i : List Char) :
    List SubnetRec × Option PyErr :=
  match store.find? (fun s => s.id == i) with
  | none => (store, some (.subnetNotFound (String.mk i)))
  | some s =>
    if s.allocated_ips.isEmpty then
      (store.filter (fun t => !(t.id == s.id)), none)
    else (store, some (.subnetInUse (String.mk s.id)))

/-- The `for subnet in net["subnets"]: self._delete_subnet(context, subnet)`
loop of `delete_network` (lines 564-565); the first in-use subnet raises,
aborting the loop with the store as mutated so far. -/
def deleteSubnetsLoop (store : List SubnetRec) :
    List SubnetRec → List SubnetRec × Option PyErr
  | [] => (store, none)
  | s :: rest =>
    if s.allocated_ips.isEmpty then
      deleteSubnetsLoop (store.filter (fun t => !(t.id == s.id))) rest
    else (store, some (.subnetInUse (String.mk s.id)))

/-- `Plugin.delete_network` (quark/plugin.py lines 551-566): find the
network, refuse when it still has ports, delete each subnet through
`_delete_subnet`, then delete the network record. -/
def delete_network (nets : List NetworkRec) (store : List SubnetRec) (i : List Char) :
    (List NetworkRec × List SubnetRec) × Option PyErr :=
  match nets.find? (fun n => n.id == i) with
  | none => ((nets, store), some (.networkNotFound (String.mk i)))
  | some net =>
    if !net.ports.isEmpty then ((nets, store), some (.networkInUse (String.mk i)))
    else
      match deleteSubnetsLoop store net.subnets with
      | (store2, some e) => ((nets, store2), some e)
      | (store2, none) => ((nets.filter (fun n => !(n.id == i)), store2), none)

theorem deleteSubnetsLoop_in_use (pre : List SubnetRec) :
    ∀ (store : List SubnetRec) (s : SubnetRec) (post : List SubnetRec),
      (∀ t ∈ pre, t.allocated_ips = []) →
      s.allocated_ips ≠ [] →
      s ∈ store →
      (∀ t ∈ pre, t.id ≠ s.id) →
      ∃ store2, deleteSubnetsLoop store (pre ++ s :: post) =
        (store2, some (.subnetInUse (String.mk s.id))) ∧ s ∈ store2 := by
  induction pre with
  | nil =>
    intro store s post _ hs hmem _
    have hemp : s.allocated_ips.isEmpty = false := by
      cases hl : s.allocated_ips with
      | nil => exact absurd hl hs
      | cons a as => rfl
    refine ⟨store, ?_, hmem⟩
    simp [deleteSubnetsLoop, hemp]
  | cons p pre ih =>
    intro store s post hpre hs hmem hids
    have hp : p.allocated_ips = [] := hpre p (List.mem_cons_self _ _)
    have hemp : p.allocated_ips.isEmpty = true := by rw [hp]; rfl
    simp only [List.cons_append, deleteSubnetsLoop, hemp, if_true]
    refine ih _ s post (fun t ht => hpre t (List.mem_cons_of_mem p ht)) hs ?_
      (fun t ht => hids t (List.mem_cons_of_mem p ht))
    refine List.mem_filter.mpr ⟨hmem, ?_⟩
    have : (s.id == p.id) = false :=
      beq_eq_false_iff_ne.mpr (Ne.symm (hids p (List.mem_cons_self _ _)))
    rw [this]
    rfl

/-- Claim C9: a subnet with a non-empty `allocated_ips` collection is never
deleted: `delete_subnet` fails with `SubnetInUse` leaving the store
untouched, and a `delete_network` whose network contains such a subnet
(after any empty ones) aborts with `SubnetInUse` while the in-use subnet
record survives in the store. -/
theorem subnet_in_use_never_deleted :
    (∀ (store : List SubnetRec) (i : List Char) (s : SubnetRec),
      store.find? (fun t => t.id == i) = some s →
      s.allocated_ips ≠ [] →
      delete_subnet store i = (store, some (.subnetInUse (String.mk s.id))) ∧
        s ∈ store) ∧
    (∀ (nets : List NetworkRec) (store : List SubnetRec) (i : List Char)
        (net : NetworkRec) (pre post : List SubnetRec) (s : SubnetRec),
      nets.find? (fun n => n.id == i) = some net →
      net.ports = [] →
      net.subnets = pre ++ s :: post →
      (∀ t ∈ pre, t.allocated_ips = []) →
      s.allocated_ips ≠ [] →
      s ∈ store →
      (∀ t ∈ pre, t.id ≠ s.id) →
      ∃ store2, delete_network nets store i =
        ((nets, store2), some (.subnetInUse (String.mk s.id))) ∧ s ∈ store2) := by
  constructor
  · intro store i s hfind hs
    have hemp : s.allocated_ips.isEmpty = false := by
      cases hl : s.allocated_ips with
      | nil => exact absurd hl hs
      | cons a as => rfl
    refine ⟨?_, List.mem_of_find?_eq_some hfind⟩
    simp [delete_subnet, hfind, hemp]
  · intro nets store i net pre post s hfind hports hsub hpre hs hmem hids
    obtain ⟨store2, hloop, hmem2⟩ := deleteSubnetsLoop_in_use pre store s post hpre hs hmem hids
    have hpe : net.ports.isEmpty = true := by rw [hports]; rfl
    refine ⟨store2, ?_, hmem2⟩
    simp [delete_network, hfind, hpe, hsub, hloop]

/-- Witness for claim C9: a subnet holding one allocated address survives
both a direct `delete_subnet` and a `delete_network` on its network, each
failing with `SubnetInUse`. -/
theorem subnet_in_use_never_deleted_witness :
    (delete_subnet [⟨"s1".data, [7]⟩] "s1".data =
      ([⟨"s1".data, [7]⟩], some (.subnetInUse "s1")) ∧
      (⟨"s1".data, [7]⟩ : SubnetRec) ∈ [(⟨"s1".data, [7]⟩ : SubnetRec)]) ∧
    ∃ store2,
      delete_network [⟨"n1".data, [], [⟨"s0".data, []⟩, ⟨"s1".data, [7]⟩]⟩]
          [⟨"s0".data, []⟩, ⟨"s1".data, [7]⟩] "n1".data =
        (([⟨"n1".data, [], [⟨"s0".data, []⟩, ⟨"s1".data, [7]⟩]⟩], store2),
          some (.subnetInUse "s1")) ∧
        (⟨"s1".data, [7]⟩ : SubnetRec) ∈ store2 := by
  constructor
  · exact subnet_in_use_never_deleted.1 [⟨"s1".data, [7]⟩] "s1".data ⟨"s1".data, [7]⟩
      (by decide) (by decide)
  · exact subnet_in_use_never_deleted.2
      [⟨"n1".data, [], [⟨"s0".data, []⟩, ⟨"s1".data, [7]⟩]⟩]
      [⟨"s0".data, []⟩, ⟨"s1".data, [7]⟩] "n1".data
      ⟨"n1".data, [], [⟨"s0".data, []⟩, ⟨"s1".data, [7]⟩]⟩
      [⟨"s0".data, []⟩] [] ⟨"s1".data, [7]⟩
      (by decide) (by decide) (by decide)
      (by intro t ht; have := List.mem_singleton.mp ht; subst this; rfl)
      (by decide) (by decide)
      (by intro t ht; have := List.mem_singleton.mp ht; subst this; decide)

/-! ### Port creation and deletion (allocation facade composition) -/

/-- The collaborator calls `create_port`/`delete_port` make, in order. -/
inductive PCall where
  | networkFind
  | allocateIPCall
  | allocateMACCall
  | deallocMACCall
  | deallocIPCall
  | backendCreatePort
  | dbPortCreate
  | portFind
  | dbPortDelete
  | backendDeletePort
  deriving DecidableEq

/-- The collaborator outcomes a `create_port` run meets: whether the network
lookup succeeds, and the result of each allocator call (the allocators are
external `ipam_driver` methods; an `Except.error` models the exception they
raise). -/
structure CreatePortEnv where
  netFound : Bool
  netId : List Char
  ipOutcome : Except PyErr Nat
  macOutcome : Except PyErr Nat
  deriving DecidableEq

/-- `Plugin.create_port` (quark/plugin.py lines 568-609) as a
trace-producing function: network lookup, then `allocate_ip_address`, then
`allocate_mac_address`, then the backend driver and the port insert.  There
is no `try`/`except` anywhere in the body: an allocator exception
propagates immediately, and in particular a MAC failure after a successful
IP allocation triggers no `deallocate_ip_address` call. -/
def create_port (env : CreatePortEnv) : Except PyErr (Nat × Nat) × List PCall :=
  if !env.netFound then
    (.error (.networkNotFound (String.mk env.netId)), [.networkFind])
  else
    match env.ipOutcome with
    | .error e => (.error e, [.networkFind, .allocateIPCall])
    | .ok ip =>
      match env.macOutcome with
      | .error e => (.error e, [.networkFind, .allocateIPCall, .allocateMACCall])
      | .ok mac =>
        (.ok (ip, mac),
          [.networkFind, .allocateIPCall, .allocateMACCall, .backendCreatePort,
            .dbPortCreate])

/-- Claim C1 (code bug): in a `create_port` run where the IP allocation
succeeds and the MAC allocation then fails, the MAC error propagates with
no `deallocate_ip_address` call anywhere in the trace — the just-allocated
IP is left active, contradicting the claimed rollback. -/
theorem create_port_no_ip_rollback :
    create_port ⟨true, "net1".data, .ok 5, .error .macAddressRangeExhausted⟩ =
      (.error .macAddressRangeExhausted,
        [.networkFind, .allocateIPCall, .allocateMACCall]) ∧
    PCall.deallocIPCall ∉
      (create_port ⟨true, "net1".data, .ok 5, .error .macAddressRangeExhausted⟩).2 :=
  ⟨rfl, by decide⟩

/-- The collaborator outcomes a `delete_port` run meets (`some e` models the
deallocator raising `e`). -/
structure DeletePortEnv where
  portFound : Bool
  portId : List Char
  macDeallocOutcome : Option PyErr
  ipDeallocOutcome : Option PyErr
  deriving DecidableEq

/-- `Plugin.delete_port` (quark/plugin.py lines 771-791) as a
trace-producing function: port lookup, `deallocate_mac_address`,
`deallocate_ip_address`, port delete, backend delete — sequential with no
error handling, so the first deallocator exception propagates and the
remaining calls never run. -/
def delete_port (env : DeletePortEnv) : Option PyErr × List PCall :=
  if !env.portFound then
    (some (.portNotFound (String.mk env.portId)), [.portFind])
  else
    match env.macDeallocOutcome with
    | some e => (some e, [.portFind, .deallocMACCall])
    | none =>
      match env.ipDeallocOutcome with
      | some e => (some e, [.portFind, .deallocMACCall, .deallocIPCall])
      | none =>
        (none,
          [.portFind, .deallocMACCall, .deallocIPCall, .dbPortDelete,
            .backendDeletePort])

/-- Claim C2 (code bug): when the MAC deallocator raises during
`delete_port`, that single error propagates immediately and
`deallocate_ip_address` is never invoked — deallocation is not best-effort
and no failures are collected. -/
theorem delete_port_not_best_effort :
    delete_port ⟨true, "p1".data, some (.notFound "mac"), none⟩ =
      (some (.notFound "mac"), [.portFind, .deallocMACCall]) ∧
    PCall.deallocIPCall ∉
      (delete_port ⟨true, "p1".data, some (.notFound "mac"), none⟩).2 :=
  ⟨rfl, by decide⟩

/-! ### `update_ip_address` -/

/-- A persisted IpAddress record, as far as `update_ip_address` touches it:
identity and the `deallocated` flag (which the handler never writes). -/
structure IpRec where
  id : List Char
  deallocated : Bool
  deriving DecidableEq

/-- The datastore slice `update_ip_address` works on: address records, port
ids, and the many-to-many port-address association pairs
`(port_id, address_id)` (an address's `ports` and a port's `ip_addresses`
are the two views of this table). -/
structure IpDb where
  addresses : List IpRec
  ports : List (List Char)
  assoc : List (List Char × List Char)
  deriving DecidableEq

/-- `Plugin.update_ip_address` (quark/plugin.py lines 938-969): find the
address; if the request carries no `port_ids` return its dict unchanged;
otherwise first remove the address from every previously associated port,
then — only when the supplied list is non-empty — look the ports up,
require all of them to exist, and associate each with the address.  The
returned value is the new state plus the dict's `port_ids` (the ids of the
ports now associated with the address). -/
def update_ip_address (db : IpDb) (i : List Char)
    (portIds : Option (List (List Char))) :
    Except PyErr (IpDb × List (List Char)) :=
  match db.addresses.find? (fun a => a.id == i) with
  | none => .error (.notFound (String.mk i))
  | some _ =>
    match portIds with
    | none => .ok (db, (db.assoc.filter (fun pr => pr.2 == i)).map (fun pr => pr.1))
    | some pids =>
      let db1 := { db with assoc := db.assoc.filter (fun pr => !(pr.2 == i)) }
      if pids.isEmpty then
        .ok (db1, (db1.assoc.filter (fun pr => pr.2 == i)).map (fun pr => pr.1))
      else
        let found := db.ports.filter (fun p => pids.contains p)
        if found.length ≠ pids.length then .error (.notFound (String.mk i))
        else
          let db2 := { db1 with assoc := db1.assoc ++ found.map (fun p => (p, i)) }
          .ok (db2, (db2.assoc.filter (fun pr => pr.2 == i)).map (fun pr => pr.1))

theorem filter_not_filter {α : Type} (p : α → Bool) (l : List α) :
    (l.filter (fun x => !(p x))).filter p = [] := by
  induction l with
  | nil => rfl
  | cons x xs ih =>
    cases hp : p x with
    | true => simp [List.filter_cons, hp, ih]
    | false => simp [List.filter_cons, hp, ih]

/-- Claim C10: `update_ip_address` with `port_ids = []` removes every
association between the address and its former ports, creates none, leaves
the address records (including the `deallocated` flag) untouched, and
returns an empty `port_ids` list. -/
theorem update_ip_address_empty_port_ids (db : IpDb) (i : List Char) (a : IpRec)
    (hfind : db.addresses.find? (fun t => t.id == i) = some a) :
    update_ip_address db i (some []) =
      .ok ({ db with assoc := db.assoc.filter (fun pr => !(pr.2 == i)) }, []) ∧
    ({ db with assoc := db.assoc.filter (fun pr => !(pr.2 == i)) } : IpDb).addresses =
      db.addresses ∧
    a ∈ db.addresses := by
  refine ⟨?_, rfl, List.mem_of_find?_eq_some hfind⟩
  simp only [update_ip_address, hfind, List.isEmpty_nil, if_true,
    filter_not_filter, List.map_nil]

/-- Witness for claim C10: an allocated address associated with one port
loses the association, keeps `deallocated = false`, and reports no
port ids. -/
theorem update_ip_address_empty_port_ids_witness :
    update_ip_address ⟨[⟨"a1".data, false⟩], ["p1".data], [("p1".data, "a1".data)]⟩
        "a1".data (some []) =
      .ok (⟨[⟨"a1".data, false⟩], ["p1".data], []⟩, []) ∧
    (⟨"a1".data, false⟩ : IpRec) ∈ [(⟨"a1".data, false⟩ : IpRec)] :=
  ⟨(update_ip_address_empty_port_ids
      ⟨[⟨"a1".data, false⟩], ["p1".data], [("p1".data, "a1".data)]⟩
      "a1".data ⟨"a1".data, false⟩ (by decide)).1,
    (update_ip_address_empty_port_ids
      ⟨[⟨"a1".data, false⟩], ["p1".data], [("p1".data, "a1".data)]⟩
      "a1".data ⟨"a1".data, false⟩ (by decide)).2.2⟩

end Quark
